import Mathlib

/-!
Verification development for the Sicoob statement-processing pipeline
(`automação_extrato.py`, plus the `App_automacao` variant).

Strings are modelled as `List Char`; a pandas cell is `Option (List Char)`
(`none` models NaN/None).  Monetary values are modelled as `ℚ`: every value
the pipeline manipulates is a finite decimal, so rationals represent the
decimal semantics exactly.  Whitespace and lowercasing are modelled at the
ASCII level (the phrase lists and the formats involved are ASCII except for
already-lowercase accented letters, which both sides treat identically).
-/

namespace Sicoob

/-- The whitespace characters recognised by Python's `str.strip` and `\s`
(ASCII fragment). -/
def wsChar (c : Char) : Bool :=
  c == ' ' || c == '\t' || c == '\n' || c == '\r' || c == '\x0b' || c == '\x0c'

/-- Python `str.strip()`: drop whitespace from both ends. -/
def pyStrip (l : List Char) : List Char :=
  ((l.dropWhile wsChar).reverse.dropWhile wsChar).reverse

/-- Helper for `collapseWs`: the Bool records whether the previous character
was whitespace (so a run emits a single `' '`). -/
def collapseWsAux : Bool → List Char → List Char
  | _, [] => []
  | prevWs, c :: rest =>
    if wsChar c then
      if prevWs then collapseWsAux true rest
      else ' ' :: collapseWsAux true rest
    else c :: collapseWsAux false rest

/-- `re.sub(r'\s+', ' ', s)`: collapse each whitespace run to one space. -/
def collapseWs (l : List Char) : List Char := collapseWsAux false l

/-- Python `str.lower()` (ASCII fragment). -/
def lowerStr (l : List Char) : List Char := l.map Char.toLower

/-- Python's `in` operator on strings: `pat` occurs as a contiguous substring. -/
def containsSub (pat : List Char) : List Char → Bool
  | [] => pat.isEmpty
  | c :: rest => pat.isPrefixOf (c :: rest) || containsSub pat rest

/-- Value of a list of decimal digit characters. -/
def digitsToNat (l : List Char) : Nat :=
  l.foldl (fun a c => a * 10 + (c.toNat - 48)) 0

/-- The digits after the (first) dot of a digits-and-dots string. -/
def fracDigits (l : List Char) : List Char :=
  (l.dropWhile (fun c => c != '.')).drop 1

/-- Python `float()` on an (unsigned) string made only of digits and dots:
accepts at most one dot and at least one digit, as `float` does on the
character set that survives the code's cleaning regex.  The decimal value
`int.frac` is the exact rational `(int·10^k + frac) / 10^k`. -/
def pyFloatAux (l : List Char) : Option ℚ :=
  if l.all (fun c => c.isDigit || c == '.') && decide (l.count '.' ≤ 1)
      && l.any Char.isDigit then
    some (mkRat
      (digitsToNat (l.takeWhile (fun c => c != '.')) * 10 ^ (fracDigits l).length
        + digitsToNat (fracDigits l))
      (10 ^ (fracDigits l).length))
  else none

/-- Python `float()` on the cleaned strings the parser produces (an optional
leading minus sign, then digits/dots). -/
def pyFloat (l : List Char) : Option ℚ :=
  match l with
  | c :: r => if c = '-' then (pyFloatAux r).map (fun q => -q) else pyFloatAux (c :: r)
  | [] => pyFloatAux []

/-- Decimal digits of a natural number. -/
def natToDigits (n : Nat) : List Char := (toString n).toList

/-- `strftime` two-digit field (`%d`, `%m`). -/
def pad2 (n : Nat) : List Char :=
  if n < 10 then '0' :: natToDigits n else natToDigits n

/-- `strftime` four-digit year (`%Y`). -/
def pad4 (n : Nat) : List Char :=
  List.replicate (4 - (natToDigits n).length) '0' ++ natToDigits n

/-- Modelled fragment of `pd.to_datetime(s, dayfirst=True)`: accepts
`d/m/yyyy` with day first (day 1–31, month 1–12); anything else is
unparseable (`NaT`). -/
def pyParseDate (s : List Char) : Option (Nat × Nat × Nat) :=
  match s.splitOn '/' with
  | [ds, ms, ys] =>
    if !ds.isEmpty && ds.all Char.isDigit && decide (ds.length ≤ 2)
        && !ms.isEmpty && ms.all Char.isDigit && decide (ms.length ≤ 2)
        && decide (ys.length = 4) && ys.all Char.isDigit then
      if decide (1 ≤ digitsToNat ds) && decide (digitsToNat ds ≤ 31)
          && decide (1 ≤ digitsToNat ms) && decide (digitsToNat ms ≤ 12) then
        some (digitsToNat ds, digitsToNat ms, digitsToNat ys)
      else none
    else none
  | _ => none

/-- `pd.to_datetime(..., dayfirst=True, errors='coerce').dt.strftime('%d/%m/%Y')`
followed by `astype(str)`: a parseable date renders as `DD/MM/YYYY`; an
unparseable one coerces to `NaT`, whose `strftime`/`astype(str)` image is the
string `"nan"`. -/
def normalizarData (s : List Char) : List Char :=
  match pyParseDate (pyStrip s) with
  | some (d, m, y) => pad2 d ++ '/' :: pad2 m ++ '/' :: pad4 y
  | none => "nan".toList

/-- Canonical injective rendering of a value, standing in for Python
`str(float)`; both sides of every key comparison use this same function, and
only its injectivity matters for deduplication. -/
def ratStr (q : ℚ) : List Char :=
  (toString q.num).toList ++ '/' :: (toString q.den).toList

/-! ## The Sicoob Format A value parser (`processar_formato_valor_sicoob`) -/

/-- A character that can occur in the numeric capture group of the Sicoob
regex (digits, thousands dot, decimal comma). -/
def numChar (c : Char) : Bool := c.isDigit || c == '.' || c == ','

/-- Checker for `(\.\d{3})*`: zero or more groups of a dot and three digits. -/
def dotGroups : List Char → Bool
  | [] => true
  | '.' :: a :: b :: c :: rest =>
    a.isDigit && b.isDigit && c.isDigit && dotGroups rest
  | _ => false

/-- Checker for `\d{1,3}(\.\d{3})*`: one to three digits then dot groups. -/
def intPartOk (ip : List Char) : Bool :=
  (decide (1 ≤ (ip.takeWhile Char.isDigit).length)
    && decide ((ip.takeWhile Char.isDigit).length ≤ 3))
  && dotGroups (ip.dropWhile Char.isDigit)

/-- Checker for the regex's capture `\d{1,3}(\.\d{3})*,\d{2}`: the part
before the comma matches `intPartOk`, the part after it is two digits. -/
def isSicoobNum (l : List Char) : Bool :=
  match l.dropWhile (fun c => c != ',') with
  | c0 :: dp =>
    (c0 == ',') && decide (dp.length = 2) && dp.all Char.isDigit
      && intPartOk (l.takeWhile (fun c => c != ','))
  | [] => false

/-- The optional leading minus of the regex (`-?`). -/
def tiraMinus : List Char → List Char
  | [] => []
  | c :: r => if c = '-' then r else c :: r

/-- The regex `^-?\s*(\d{1,3}(?:\.\d{3})*,\d{2})\s*([DC])$` from the source,
as a functional matcher returning the two capture groups. -/
def sicoobMatch (l : List Char) : Option (List Char × Char) :=
  let l2 := (tiraMinus l).dropWhile wsChar
  let num := l2.takeWhile numChar
  if isSicoobNum num then
    match (l2.dropWhile numChar).dropWhile wsChar with
    | [f] => if f == 'D' || f == 'C' then some (num, f) else none
    | _ => none
  else none

/-- `processar_formato_valor_sicoob` (src/automação_extrato.py lines 163–217,
identical in the App_automacao variant): strip, reject empty/`"nan"`,
collapse whitespace, try the Sicoob regex (flag `D` keeps the parsed value,
flag `C` yields `none`), and otherwise fall back to the generic parser.  The
regex branch's `float` call cannot fail on a shape-checked capture, so its
unreachable failure is rendered as `none`. -/
def processarFormatoValorSicoob (s : List Char) : Option ℚ :=
  let t := pyStrip s
  if t.isEmpty || t == "nan".toList then none
  else
    let u := collapseWs t
    match sicoobMatch u with
    | some (num, tipo) =>
      match pyFloat ((num.filter (fun c => c != '.')).map
          (fun c => if c == ',' then '.' else c)) with
      | some v => if tipo == 'D' then some v else none
      | none => none
    | none =>
      if u.any (fun c => c == 'C' || c == 'c') then none
      else
        let limpo := u.filter (fun c => c.isDigit || c == '.' || c == ',' || c == '-')
        if limpo.isEmpty then none
        else
          match pyFloat (limpo.map (fun c => if c == ',' then '.' else c)) with
          | some v =>
            if u.contains '-' || u.any (fun c => c == 'D' || c == 'd') then some v
            else none
          | none => none

example : processarFormatoValorSicoob "- 2.460,73 D".toList = some (mkRat 246073 100) := by
  decide

example : processarFormatoValorSicoob "2.794,76 C".toList = none := by decide

example : processarFormatoValorSicoob "-125,69".toList = some (-(mkRat 12569 100)) := by
  decide

/-! ## Decoded rows and the consolidation state machine
(`processar_extrato_individual`, src/automação_extrato.py lines 456–528) -/

/-- A pandas cell: `none` models NaN/None, `some s` a string value. -/
abbrev Cell := Option (List Char)

/-- One decoded statement row after column assignment
(`DATA`, `DOCUMENTO`, `HISTORICO`, `VALOR`). -/
structure RawRow where
  data : Cell
  documento : Cell
  historico : Cell
  valor : Cell
deriving DecidableEq

/-- `str(cell).strip() if pd.notna(cell) else ""`. -/
def cellStr (c : Cell) : List Char :=
  match c with
  | none => []
  | some s => pyStrip s

/-- `data_str and data_str != "" and data_str != "nan"`. -/
def dataValida (ds : List Char) : Bool :=
  !ds.isEmpty && !(ds == "nan".toList)

/-- `valor_str and ("C" in valor_str or "c" in valor_str.lower())`. -/
def ehCredito (vs : List Char) : Bool :=
  !vs.isEmpty && vs.any (fun c => c == 'C' || c == 'c')

/-- The four balance phrases checked during consolidation
(`frases_saldo`, lines 480 and 512). -/
def frasesSaldo4 : List (List Char) :=
  ["SALDO DO DIA".toList, "SALDO ANTERIOR".toList,
   "SALDO ATUAL".toList, "SALDO FINAL".toList]

/-- `frase.lower() in historico_str.lower()` for some consolidation phrase. -/
def ehSaldo (hs : List Char) : Bool :=
  frasesSaldo4.any (fun p => containsSub (lowerStr p) (lowerStr hs))

/-- The mutable loop variables of the consolidation loop. -/
structure ConsState where
  registros : List RawRow
  histAtual : List Char
  linhaPrincipal : Option RawRow
  ignorandoCont : Bool
deriving DecidableEq

/-- One iteration of the consolidation loop (lines 464–522): a date-bearing
row either is credit/balance noise (enter skipping mode) or flushes the
pending transaction and becomes the new principal row; a dateless row with
text is a continuation, appended unless skipping or itself a balance
phrase. -/
def consStep (st : ConsState) (r : RawRow) : ConsState :=
  let ds := cellStr r.data
  let hs := cellStr r.historico
  let vs := cellStr r.valor
  if dataValida ds then
    if ehCredito vs || ehSaldo hs then
      { st with ignorandoCont := true }
    else
      { registros :=
          match st.linhaPrincipal with
          | some lp => st.registros ++ [{ lp with historico := some (pyStrip st.histAtual) }]
          | none => st.registros,
        histAtual := hs,
        linhaPrincipal := some r,
        ignorandoCont := false }
  else if !hs.isEmpty then
    if st.ignorandoCont then st
    else
      match st.linhaPrincipal with
      | some _ =>
        if ehSaldo hs then st
        else { st with histAtual :=
          if st.histAtual.isEmpty then hs else st.histAtual ++ ' ' :: hs }
      | none => st
  else st

/-- The consolidation loop plus the final flush (lines 524–528); the second
component is `transacoes_processadas`, which the loop increments exactly
once per emitted record. -/
def consolidar (rows : List RawRow) : List RawRow × Nat :=
  let st := rows.foldl consStep ⟨[], [], none, false⟩
  match st.linhaPrincipal with
  | some lp =>
    (st.registros ++ [{ lp with historico := some (pyStrip st.histAtual) }],
     st.registros.length + 1)
  | none => (st.registros, st.registros.length)

/-! ## Post-consolidation phrase filter (lines 544–558) -/

/-- The literal 12-entry `frases_a_ignorar` list of the source (four phrases
appear in both upper and lower case). -/
def frasesAIgnorar : List (List Char) :=
  ["SALDO DO DIA".toList, "SALDO ANTERIOR".toList, "SALDO ATUAL".toList,
   "SALDO FINAL".toList,
   "saldo do dia".toList, "saldo anterior".toList, "saldo atual".toList,
   "saldo final".toList,
   "Saldo bloqueado anterior".toList, "Saldo bloqueado".toList,
   "Saldo disponível".toList, "Saldo em conta".toList]

/-- `Series.str.contains(frase, case=False)` on one string. -/
def contemFrase (p hs : List Char) : Bool :=
  containsSub (lowerStr p) (lowerStr hs)

/-- `Series.str.contains(frase, case=False, na=False)` on one cell. -/
def contemFraseCell (p : List Char) (c : Cell) : Bool :=
  match c with
  | none => false
  | some hs => contemFrase p hs

/-- The sequential filter loop `for frase in frases_a_ignorar: df = df[~...]`. -/
def filtrarFrases (rows : List RawRow) : List RawRow :=
  frasesAIgnorar.foldl
    (fun df frase => df.filter (fun r => !contemFraseCell frase r.historico)) rows

/-- The spec's eight distinct noise phrases (§4.4). -/
def frasesNoise8 : List (List Char) :=
  ["saldo do dia".toList, "saldo anterior".toList, "saldo atual".toList,
   "saldo final".toList, "saldo bloqueado anterior".toList,
   "saldo bloqueado".toList, "saldo disponível".toList, "saldo em conta".toList]

/-- A description contains one of the spec's eight noise phrases,
case-insensitively. -/
def contemAlgumaFrase8 (hs : List Char) : Bool :=
  frasesNoise8.any (fun p => contemFrase p hs)

/-- Cell version of `contemAlgumaFrase8` (NaN counts as not containing). -/
def contemAlgumaFrase8Cell (c : Cell) : Bool :=
  match c with
  | none => false
  | some hs => contemAlgumaFrase8 hs

/-! ## Value processing, mapping and deduplication (lines 560–632) -/

/-- `HISTORICO.str.replace(r'\s+', ' ', regex=True).str.strip()` on one row. -/
def limparHistorico (r : RawRow) : RawRow :=
  { r with historico := r.historico.map (fun h => pyStrip (collapseWs h)) }

/-- `processar_formato_valor_sicoob` applied to a raw cell (the `pd.isna`
guard maps NaN to the sentinel). -/
def processarValorCell : Cell → Option ℚ
  | none => none
  | some s => processarFormatoValorSicoob s

/-- One row of `novos_lancamentos` restricted to the fields the pipeline
fills with data (the remaining ledger columns are the constant `''`). -/
structure Lancamento where
  dataVencimento : List Char
  descricao : List Char
  valor : ℚ
  numeroDocto : Cell
deriving DecidableEq

/-- One row of the ledger's `Banco` sheet restricted to the three columns
used for comparison. -/
structure BancoRow where
  dataVencimento : Cell
  descricao : Cell
  valor : Option ℚ
deriving DecidableEq

/-- Steps 4–5 applied to the consolidated records: the phrase filter, the
`dropna(subset=['DATA'])`, and the description cleanup. -/
def aposFiltros (cons : List RawRow) : List RawRow :=
  ((filtrarFrases cons).filter (fun r => r.data.isSome)).map limparHistorico

/-- Step 6, `df[df['VALOR_PROCESSADO'].notna()]`. -/
def debitosValidos (rows : List RawRow) : List RawRow :=
  rows.filter (fun r => (processarValorCell r.valor).isSome)

/-- Step 7, the mapping of one debit row onto the ledger schema. -/
def paraLancamento (r : RawRow) : Lancamento :=
  { dataVencimento := r.data.getD [],
    descricao := r.historico.getD [],
    valor := (processarValorCell r.valor).getD 0,
    numeroDocto := r.documento }

/-- The identity key of a new entry: normalized date, `'|'`, stripped and
lowercased description, `'|'`, stringified amount (lines 624–628). -/
def chaveLancamento (l : Lancamento) : List Char :=
  pyStrip (normalizarData l.dataVencimento) ++
    '|' :: (lowerStr (pyStrip l.descricao) ++ '|' :: ratStr l.valor)

/-- The identity key of an existing ledger row, `none` when one of the three
compared columns is missing (`dropna(subset=...)`, line 607). -/
def chaveBanco (r : BancoRow) : Option (List Char) :=
  match r.dataVencimento, r.descricao, r.valor with
  | some d, some desc, some v =>
    some (pyStrip (normalizarData d) ++
      '|' :: (lowerStr (pyStrip desc) ++ '|' :: ratStr v))
  | _, _, _ => none

/-- The set of comparable keys already in the ledger. -/
def chavesBanco (banco : List BancoRow) : List (List Char) :=
  banco.filterMap chaveBanco

/-- Step 8: `novos_lancamentos[~novos_temp['ID'].isin(df_banco_temp['ID'])]`. -/
def filtrarDuplicatas (novos : List Lancamento) (banco : List BancoRow) :
    List Lancamento :=
  novos.filter (fun l => decide (chaveLancamento l ∉ chavesBanco banco))

/-- The `Banco`-sheet image of an appended entry, as the next run reads it
back. -/
def paraBancoRow (l : Lancamento) : BancoRow :=
  { dataVencimento := some l.dataVencimento,
    descricao := some l.descricao,
    valor := some l.valor }

/-! ## The full per-statement pipeline (`processar_extrato_individual`) -/

/-- The result record returned to the caller. -/
structure Resultado where
  sucesso : Bool
  transacoesProcessadas : Nat
  debitosEncontrados : Nat
  novosLancamentos : Nat
  duplicatasIgnoradas : Nat
  erro : Option (List Char)
deriving DecidableEq

/-- The record built by the outer `except` handler (lines 673–681). -/
def errResultado (msg : List Char) : Resultado :=
  ⟨false, 0, 0, 0, 0, some msg⟩

/-- A successful result (the keys of the dicts returned on lines 536–542,
586–592, 637–643 and 665–671). -/
def okResultado (t d n dup : Nat) : Resultado :=
  ⟨true, t, d, n, dup, none⟩

/-- Column assignment (lines 432–438): with at least four columns the first
four are `DATA, DOCUMENTO, HISTORICO, VALOR`; with exactly three,
`DOCUMENTO` is synthesized as the empty string. -/
def extrairLinha (ncols : Nat) (cells : List Cell) : RawRow :=
  if 4 ≤ ncols then
    ⟨cells.getD 0 none, cells.getD 1 none, cells.getD 2 none, cells.getD 3 none⟩
  else
    ⟨cells.getD 0 none, some [], cells.getD 1 none, cells.getD 2 none⟩

/-- `dropna(how='all')`: all four selected cells are NaN. -/
def linhaTodaNaN (r : RawRow) : Bool :=
  r.data.isNone && r.documento.isNone && r.historico.isNone && r.valor.isNone

/-- The decoded rows surviving `dropna(how='all')` (line 451). -/
def linhasLimpas (ncols : Nat) (linhas : List (List Cell)) : List RawRow :=
  (linhas.map (extrairLinha ncols)).filter (fun r => !linhaTodaNaN r)

/-- The consolidated records of a decoded statement. -/
def consolidado (ncols : Nat) (linhas : List (List Cell)) : List RawRow :=
  (consolidar (linhasLimpas ncols linhas)).1

/-- The `transacoes_processadas` counter of a decoded statement. -/
def transDe (ncols : Nat) (linhas : List (List Cell)) : Nat :=
  (consolidar (linhasLimpas ncols linhas)).2

/-- `df_extrato_debitos` of a decoded statement. -/
def debitosDe (ncols : Nat) (linhas : List (List Cell)) : List RawRow :=
  debitosValidos (aposFiltros (consolidado ncols linhas))

/-- `novos_lancamentos` of a decoded statement. -/
def novosDe (ncols : Nat) (linhas : List (List Cell)) : List Lancamento :=
  (debitosDe ncols linhas).map paraLancamento

/-- `processar_extrato_individual` (lines 336–681) from the decoded table
onwards: the input is the decoded cell table (with its column count) and the
current contents of the ledger's `Banco` sheet; the output is the result
record and the `Banco` contents after the run (the write step appends the
deduplicated entries).  The three `raise` sites inside the `try` reach the
outer `except`, which returns a failure record with zeroed counters. -/
def processarExtratoIndividual (ncols : Nat) (linhas : List (List Cell))
    (banco : List BancoRow) : Resultado × List BancoRow :=
  if ncols < 3 then
    (errResultado "estrutura inesperada".toList, banco)
  else if (linhas.map (extrairLinha ncols)).isEmpty then
    (errResultado "arquivo vazio ou sem dados validos".toList, banco)
  else if (linhasLimpas ncols linhas).isEmpty then
    (errResultado "sem dados validos apos limpeza".toList, banco)
  else if (consolidado ncols linhas).isEmpty then
    (okResultado 0 0 0 0, banco)
  else if (debitosDe ncols linhas).isEmpty then
    (okResultado (transDe ncols linhas) 0 0 0, banco)
  else if (filtrarDuplicatas (novosDe ncols linhas) banco).isEmpty then
    (okResultado (transDe ncols linhas) (debitosDe ncols linhas).length 0
      ((novosDe ncols linhas).length
        - (filtrarDuplicatas (novosDe ncols linhas) banco).length),
     banco)
  else
    (okResultado (transDe ncols linhas) (debitosDe ncols linhas).length
      (filtrarDuplicatas (novosDe ncols linhas) banco).length
      ((novosDe ncols linhas).length
        - (filtrarDuplicatas (novosDe ncols linhas) banco).length),
     banco ++ (filtrarDuplicatas (novosDe ncols linhas) banco).map paraBancoRow)

/-! ## The Format B pipeline fragment (`processar_extrato_novo_formato`,
src/App_automacao/automação_extrato.py lines 842–898) -/

/-- A Format B row after column selection (`iloc[:, [0, 1, 3]]`): the decoder
types the `Valor` column numerically, so the cell is a rational or NaN. -/
structure RowB where
  data : Cell
  historico : Cell
  valor : Option ℚ
deriving DecidableEq

/-- `dropna(how='all')` on the selected Format B columns. -/
def rowBTodaNaN (r : RowB) : Bool :=
  r.data.isNone && r.historico.isNone && r.valor.isNone

/-- The Format B rows surviving `dropna(how='all')` (line 883). -/
def limpezaB (rows : List RowB) : List RowB :=
  rows.filter (fun r => !rowBTodaNaN r)

/-- `df['Valor'] < 0` on one row; a NaN amount compares as `False`. -/
def valorNegativo (r : RowB) : Bool :=
  match r.valor with
  | some q => decide (q < 0)
  | none => false

/-- `Series.abs()` on ℚ. -/
def absQ (q : ℚ) : ℚ := if q < 0 then -q else q

/-- Lines 887–898: keep the strictly negative amounts
(`df[df['Valor'] < 0]`) and store their absolute value. -/
def debitosNovoFormato (rows : List RowB) : List RowB :=
  ((limpezaB rows).filter valorNegativo).map
    (fun r => { r with valor := r.valor.map absQ })

/-! ## The workbook writer (`adicionar_dados_preservando_formatacao`,
src/automação_extrato.py lines 219–334) -/

/-- A spreadsheet cell as openpyxl sees it. -/
inductive XCell where
  | vazia : XCell
  | texto : List Char → XCell
  | numero : ℚ → XCell
  | data : Nat → Nat → Nat → XCell
deriving DecidableEq

/-- A sheet is its grid of rows (1-indexed through `linhaDe`/`celulaDe`). -/
abbrev Sheet := List (List XCell)

/-- A workbook is its named sheets. -/
abbrev Workbook := List (List Char × Sheet)

/-- Row `r` (1-indexed) of a sheet; rows beyond the grid are empty. -/
def linhaDe (sh : Sheet) (r : Nat) : List XCell := sh.getD (r - 1) []

/-- Cell at row `r`, column `c` (1-indexed). -/
def celulaDe (sh : Sheet) (r c : Nat) : XCell :=
  (linhaDe sh r).getD (c - 1) XCell.vazia

/-- `cell.value is None or str(cell.value).strip() == ""`. -/
def celulaVazia : XCell → Bool
  | XCell.vazia => true
  | XCell.texto s => (pyStrip s).isEmpty
  | XCell.numero _ => false
  | XCell.data _ _ _ => false

/-- The first seven columns of row `r` are all empty (lines 238–247). -/
def linhaVazia (sh : Sheet) (r : Nat) : Bool :=
  (List.range' 1 7).all (fun c => celulaVazia (celulaDe sh r c))

/-- `ws.max_row` (at least 1 even for an empty sheet). -/
def maxRowDe (sh : Sheet) : Nat := max 1 sh.length

/-- The insertion-point scan (lines 235–247): the first row, strictly after
the header row 1 and up to `max_row`, whose seven columns are empty;
otherwise `max_row + 1`. -/
def primeiraLinhaVazia (sh : Sheet) : Nat :=
  match (List.range' 2 (maxRowDe sh - 1)).find? (fun r => linhaVazia sh r) with
  | some r => r
  | none => maxRowDe sh + 1

/-- Overwrite cell `(r, c)` (1-indexed), extending the grid as openpyxl
does. -/
def escreverCelula (sh : Sheet) (r c : Nat) (v : XCell) : Sheet :=
  let sh' := sh ++ List.replicate (r - sh.length) []
  sh'.set (r - 1)
    (let row := sh'.getD (r - 1) []
     (row ++ List.replicate (c - row.length) XCell.vazia).set (c - 1) v)

/-- Column A: a string matching `'%d/%m/%Y'` becomes a typed date, anything
else is written as is (lines 259–270). -/
def celulaData (s : List Char) : XCell :=
  match pyParseDate s with
  | some (d, m, y) => XCell.data d m y
  | none => XCell.texto s

/-- A cell written from an optional string (openpyxl writes `None` as an
empty cell). -/
def celulaTextoCell : Cell → XCell
  | none => XCell.vazia
  | some s => XCell.texto s

/-- Write the seven columns of one entry at row `r` (lines 257–293). -/
def escreverLancamento (sh : Sheet) (r : Nat) (l : Lancamento) : Sheet :=
  let s1 := escreverCelula sh r 1 (celulaData l.dataVencimento)
  let s2 := escreverCelula s1 r 2 (XCell.texto l.descricao)
  let s3 := escreverCelula s2 r 3 (XCell.numero l.valor)
  let s4 := escreverCelula s3 r 4 (XCell.texto [])
  let s5 := escreverCelula s4 r 5 (celulaTextoCell l.numeroDocto)
  let s6 := escreverCelula s5 r 6 (XCell.texto [])
  escreverCelula s6 r 7 (XCell.texto l.descricao)

/-- Write the entries on consecutive rows starting at `r`. -/
def escreverTodos (sh : Sheet) (r : Nat) : List Lancamento → Sheet
  | [] => sh
  | l :: ls => escreverTodos (escreverLancamento sh r l) (r + 1) ls

/-- `adicionar_dados_preservando_formatacao` at the cell-value level, on the
path where it succeeds: the workbook's `Banco` sheet receives the new
entries starting at the first empty row; no other sheet is touched.
(Formatting and column widths are cosmetic and outside the cell-value
model.)  When this writer fails — an environmental condition — the pipeline
instead runs the pandas fallback modelled below by `escreverFallback`; the
two paths are combined in `escreverComFallback`. -/
def adicionarDadosPreservandoFormatacao (wb : Workbook) (ls : List Lancamento) :
    Workbook :=
  wb.map (fun p =>
    if p.1 = "Banco".toList then
      (p.1, escreverTodos p.2 (primeiraLinhaVazia p.2) ls)
    else p)

/-- The sheet of a workbook with a given name. -/
def abaDe (wb : Workbook) (nome : List Char) : Option Sheet :=
  (wb.find? (fun p => p.1 == nome)).map (fun p => p.2)

/-! ## The pandas fallback write (src/automação_extrato.py lines 645–663)

When `adicionar_dados_preservando_formatacao` reports failure, the pipeline
re-reads every sheet with `pd.read_excel(sheet_name=None)` and rewrites the
whole workbook with `ExcelWriter(mode='w')`: the updated `Banco` frame
first, then each other sheet's data frame.  A sheet therefore goes through
a read/write round trip in which its first row becomes the frame's column
names; a blank header cell is named `Unnamed: j` (0-based column index) by
pandas and written back as that text. -/

/-- pandas column naming for one header cell at 0-based index `j`. -/
def pandasColName (j : Nat) (c : XCell) : XCell :=
  match c with
  | XCell.vazia => XCell.texto ("Unnamed: ".toList ++ natToDigits j)
  | c => c

/-- The header row after the read/write round trip, indices from `j`. -/
def renomeiaCabecalho : Nat → List XCell → List XCell
  | _, [] => []
  | j, c :: r => pandasColName j c :: renomeiaCabecalho (j + 1) r

/-- One sheet after the fallback's `read_excel`/`to_excel` round trip: the
header row gets pandas column names, the data rows are written back below
(cell values preserved; pandas re-lays out typing and formatting, which is
outside the cell-value model). -/
def pandasReescreveAba (sh : Sheet) : Sheet :=
  match sh with
  | [] => []
  | header :: rows => renomeiaCabecalho 0 header :: rows

/-- One appended entry as `to_excel` writes it in the fallback: raw values,
without the formatted writer's `strptime`/number-format step. -/
def linhaFallback (l : Lancamento) : List XCell :=
  [XCell.texto l.dataVencimento, XCell.texto l.descricao, XCell.numero l.valor,
   XCell.texto [], celulaTextoCell l.numeroDocto, XCell.texto [],
   XCell.texto l.descricao]

/-- The fallback's rewritten `Banco` sheet: `pd.concat` of the rows read
from the old sheet with the new entries, written under the header row
(whose names the template fixes; an absent `Banco` sheet does not occur on
this path). -/
def abaBancoFallback (sh : Sheet) (ls : List Lancamento) : Sheet :=
  match sh with
  | [] => ls.map linhaFallback
  | header :: rows => renomeiaCabecalho 0 header :: (rows ++ ls.map linhaFallback)

/-- Lines 655–663: the whole-workbook rewrite, `Banco` first, then every
other sheet (in original order) as its round trip. -/
def escreverFallback (wb : Workbook) (ls : List Lancamento) : Workbook :=
  ("Banco".toList, abaBancoFallback ((abaDe wb "Banco".toList).getD []) ls) ::
    (wb.filter (fun p => !(p.1 == "Banco".toList))).map
      (fun p => (p.1, pandasReescreveAba p.2))

/-- The pipeline's write step (lines 645–663): the formatted writer when it
succeeds, the pandas whole-workbook rewrite when it fails.  Whether the
formatted writer fails is an environmental condition (locked file, style
error), passed here as the Boolean. -/
def escreverComFallback (formatadoOk : Bool) (wb : Workbook)
    (ls : List Lancamento) : Workbook :=
  if formatadoOk then adicionarDadosPreservandoFormatacao wb ls
  else escreverFallback wb ls

/-- The identity key exactly as §4.5 of the spec words it: an unparseable
due-date keeps its original string in the key (spec-side definition, for
comparison with the code-side `chaveLancamento`). -/
def chaveEspecificada (d desc : List Char) (v : ℚ) : List Char :=
  (match pyParseDate (pyStrip d) with
   | some (dd, mm, yy) => pad2 dd ++ '/' :: pad2 mm ++ '/' :: pad4 yy
   | none => d) ++ '|' :: (lowerStr (pyStrip desc) ++ '|' :: ratStr v)

/-! # Helper lemmas -/

theorem foldl_filter_eq_filter_all {α β : Type} (f : β → α → Bool) :
    ∀ (ps : List β) (l : List α),
      ps.foldl (fun acc p => acc.filter (f p)) l
        = l.filter (fun a => ps.all (fun p => f p a)) := by
  intro ps
  induction ps with
  | nil => intro l; simp
  | cons p ps ih =>
    intro l
    calc (p :: ps).foldl (fun acc p => acc.filter (f p)) l
        = (l.filter (f p)).filter (fun a => ps.all (fun p => f p a)) := by
          simpa using ih (l.filter (f p))
      _ = l.filter (fun a => ps.all (fun p => f p a) && f p a) := by
          rw [List.filter_filter]
      _ = l.filter (fun a => (p :: ps).all (fun p => f p a)) := by
          refine List.filter_congr (fun a _ => ?_)
          simp [List.all_cons, Bool.and_comm]

theorem filtrarFrases_eq_filter (rows : List RawRow) :
    filtrarFrases rows
      = rows.filter
          (fun r => frasesAIgnorar.all (fun p => !contemFraseCell p r.historico)) :=
  foldl_filter_eq_filter_all _ frasesAIgnorar rows

theorem filtrarFrases_length_le (rows : List RawRow) :
    (filtrarFrases rows).length ≤ rows.length := by
  rw [filtrarFrases_eq_filter]; exact List.length_filter_le _ rows

theorem consolidar_snd_eq_length (rows : List RawRow) :
    (consolidar rows).2 = (consolidar rows).1.length := by
  unfold consolidar
  rcases h : (rows.foldl consStep ⟨[], [], none, false⟩).linhaPrincipal with _ | lp <;>
    simp [h]

theorem debitos_le_trans (ncols : Nat) (linhas : List (List Cell)) :
    (debitosDe ncols linhas).length ≤ transDe ncols linhas := by
  have h1 : (debitosDe ncols linhas).length ≤ (aposFiltros (consolidado ncols linhas)).length :=
    List.length_filter_le _ _
  have h2 : (aposFiltros (consolidado ncols linhas)).length
      ≤ (filtrarFrases (consolidado ncols linhas)).length := by
    unfold aposFiltros
    rw [List.length_map]
    exact List.length_filter_le _ _
  have h3 := filtrarFrases_length_le (consolidado ncols linhas)
  have h4 : transDe ncols linhas = (consolidado ncols linhas).length :=
    consolidar_snd_eq_length _
  omega

/-! # The claims -/

/-- C9: every successful result of `processar_extrato_individual` satisfies
`novos_lancamentos + duplicatas_ignoradas = debitos_encontrados` and
`debitos_encontrados ≤ transacoes_processadas`; every failure result has all
four counters equal to zero. -/
theorem contadores_consistentes (ncols : Nat) (linhas : List (List Cell))
    (banco : List BancoRow) :
    ((processarExtratoIndividual ncols linhas banco).1.sucesso = true →
      (processarExtratoIndividual ncols linhas banco).1.novosLancamentos
          + (processarExtratoIndividual ncols linhas banco).1.duplicatasIgnoradas
        = (processarExtratoIndividual ncols linhas banco).1.debitosEncontrados ∧
      (processarExtratoIndividual ncols linhas banco).1.debitosEncontrados
        ≤ (processarExtratoIndividual ncols linhas banco).1.transacoesProcessadas) ∧
    ((processarExtratoIndividual ncols linhas banco).1.sucesso = false →
      (processarExtratoIndividual ncols linhas banco).1.transacoesProcessadas = 0 ∧
      (processarExtratoIndividual ncols linhas banco).1.debitosEncontrados = 0 ∧
      (processarExtratoIndividual ncols linhas banco).1.novosLancamentos = 0 ∧
      (processarExtratoIndividual ncols linhas banco).1.duplicatasIgnoradas = 0) := by
  have hlen : (novosDe ncols linhas).length = (debitosDe ncols linhas).length :=
    List.length_map _ _
  have hkept : (filtrarDuplicatas (novosDe ncols linhas) banco).length
      ≤ (novosDe ncols linhas).length := List.length_filter_le _ _
  have htrans := debitos_le_trans ncols linhas
  unfold processarExtratoIndividual
  split_ifs with h1 h2 h3 h4 h5 h6
  · simp [errResultado]
  · simp [errResultado]
  · simp [errResultado]
  · simp [okResultado]
  · simp [okResultado]
  · have hk0 : (filtrarDuplicatas (novosDe ncols linhas) banco).length = 0 := by
      simp [List.isEmpty_iff.mp h6]
    simp only [okResultado, Prod.fst]
    refine ⟨fun _ => ⟨?_, ?_⟩, fun hs => by cases hs⟩
    · omega
    · exact htrans
  · simp only [okResultado, Prod.fst]
    refine ⟨fun _ => ⟨?_, ?_⟩, fun hs => by cases hs⟩
    · omega
    · exact htrans

theorem contadores_consistentes_witness :
    ((processarExtratoIndividual 4
        [[some "01/02/2024".toList, some "1".toList, some "Pagamento X".toList,
          some "- 125,69 D".toList]] []).1.sucesso = true) ∧
    ((processarExtratoIndividual 4
          [[some "01/02/2024".toList, some "1".toList, some "Pagamento X".toList,
            some "- 125,69 D".toList]] []).1.novosLancamentos
        + (processarExtratoIndividual 4
            [[some "01/02/2024".toList, some "1".toList, some "Pagamento X".toList,
              some "- 125,69 D".toList]] []).1.duplicatasIgnoradas
      = (processarExtratoIndividual 4
          [[some "01/02/2024".toList, some "1".toList, some "Pagamento X".toList,
            some "- 125,69 D".toList]] []).1.debitosEncontrados ∧
      (processarExtratoIndividual 4
          [[some "01/02/2024".toList, some "1".toList, some "Pagamento X".toList,
            some "- 125,69 D".toList]] []).1.debitosEncontrados
        ≤ (processarExtratoIndividual 4
            [[some "01/02/2024".toList, some "1".toList, some "Pagamento X".toList,
              some "- 125,69 D".toList]] []).1.transacoesProcessadas) :=
  ⟨by decide,
   (contadores_consistentes 4
      [[some "01/02/2024".toList, some "1".toList, some "Pagamento X".toList,
        some "- 125,69 D".toList]] []).1 (by decide)⟩

/-- C2 counterexample: on an empty decoded table (and on a table whose rows
are all removed by cleaning) the pipeline raises and the handler returns a
failure record, not a zero-result success. -/
theorem extrato_vazio_falha_cex :
    (processarExtratoIndividual 4 [] []).1.sucesso = false ∧
    (processarExtratoIndividual 4 [[none, none, none, none]] []).1.sucesso = false := by
  decide

/-- C2 amended: a statement whose rows vanish after the header skip or after
cleaning yields a failure result carrying an error message, not the claimed
zero-result success. -/
theorem extrato_vazio_falha (ncols : Nat) (linhas : List (List Cell))
    (banco : List BancoRow) (h3 : 3 ≤ ncols)
    (hemp : (linhasLimpas ncols linhas).isEmpty = true) :
    (processarExtratoIndividual ncols linhas banco).1.sucesso = false ∧
    (processarExtratoIndividual ncols linhas banco).1.erro.isSome = true ∧
    (processarExtratoIndividual ncols linhas banco).1.transacoesProcessadas = 0 ∧
    (processarExtratoIndividual ncols linhas banco).1.debitosEncontrados = 0 ∧
    (processarExtratoIndividual ncols linhas banco).1.novosLancamentos = 0 ∧
    (processarExtratoIndividual ncols linhas banco).1.duplicatasIgnoradas = 0 := by
  unfold processarExtratoIndividual
  split_ifs with h1 h2 <;> first
    | omega
    | simp [errResultado]

theorem extrato_vazio_falha_witness :
    3 ≤ 4 ∧ (linhasLimpas 4 []).isEmpty = true ∧
      ((processarExtratoIndividual 4 [] []).1.sucesso = false ∧
        (processarExtratoIndividual 4 [] []).1.erro.isSome = true ∧
        (processarExtratoIndividual 4 [] []).1.transacoesProcessadas = 0 ∧
        (processarExtratoIndividual 4 [] []).1.debitosEncontrados = 0 ∧
        (processarExtratoIndividual 4 [] []).1.novosLancamentos = 0 ∧
        (processarExtratoIndividual 4 [] []).1.duplicatasIgnoradas = 0) :=
  ⟨by decide, by decide, extrato_vazio_falha 4 [] [] (by decide) (by decide)⟩

/-- C10: the generic fallback of `processar_formato_valor_sicoob` accepts
the string `"-125,69"` (no Format A match, no credit letter, a minus sign)
and returns the strictly negative value −125.69: the fallback keeps the
original sign, so a parsed debit amount is not guaranteed positive. -/
theorem fallback_mantem_sinal :
    processarFormatoValorSicoob "-125,69".toList = some (-(mkRat 12569 100)) ∧
    (-(mkRat 12569 100) : ℚ) < 0 := by decide

/-- C6 counterexample: for an entry whose due-date does not parse, the
code's identity key replaces the date by the string `"nan"` while the spec's
key keeps the original string, so the two keys differ. -/
theorem chave_data_invalida_cex :
    chaveLancamento ⟨"sem data".toList, "luz".toList, mkRat 10 1, none⟩ ≠
      chaveEspecificada "sem data".toList "luz".toList (mkRat 10 1) := by decide

/-- C6 amended: the identity key is normalized-date, trimmed-lowercased
description and stringified amount joined by a bar separator, except that an
unparseable due-date contributes the fixed string `"nan"` (not its original
text); two entries with the same date and amount whose descriptions differ
only by case or surrounding whitespace are deduplicated against each
other. -/
theorem chave_identidade :
    (∀ (d desc : List Char) (v : ℚ) (doc : Cell),
      pyParseDate (pyStrip d) = none →
      chaveLancamento ⟨d, desc, v, doc⟩ =
        "nan".toList ++ '|' :: (lowerStr (pyStrip desc) ++ '|' :: ratStr v)) ∧
    (∀ (d desc₁ desc₂ : List Char) (v : ℚ) (doc : Cell),
      lowerStr (pyStrip desc₁) = lowerStr (pyStrip desc₂) →
      filtrarDuplicatas [⟨d, desc₂, v, doc⟩] [⟨some d, some desc₁, some v⟩] = []) := by
  constructor
  · intro d desc v doc h
    simp [chaveLancamento, normalizarData, h,
      (by decide : pyStrip ['n', 'a', 'n'] = ['n', 'a', 'n'])]
  · intro d desc₁ desc₂ v doc h
    simp [filtrarDuplicatas, chavesBanco, chaveBanco, List.filterMap,
      chaveLancamento, h]

theorem chave_identidade_witness :
    (pyParseDate (pyStrip "sem data".toList) = none ∧
      chaveLancamento ⟨"sem data".toList, "luz".toList, mkRat 10 1, none⟩ =
        "nan".toList ++ '|' ::
          (lowerStr (pyStrip "luz".toList) ++ '|' :: ratStr (mkRat 10 1))) ∧
    (lowerStr (pyStrip " LUZ ".toList) = lowerStr (pyStrip "luz".toList) ∧
      filtrarDuplicatas [⟨"01/02/2024".toList, "luz".toList, mkRat 5 1, none⟩]
        [⟨some "01/02/2024".toList, some " LUZ ".toList, some (mkRat 5 1)⟩] = []) :=
  ⟨⟨by decide, chave_identidade.1 _ _ _ _ (by decide)⟩,
   ⟨by decide, chave_identidade.2 "01/02/2024".toList " LUZ ".toList "luz".toList
      (mkRat 5 1) none (by decide)⟩⟩

/-- C5: consolidating a date-bearing debit row, a dateless continuation row
and a date-bearing balance row emits exactly one logical transaction,
carrying the first row's date and the space-joined description, while the
balance row is dropped entirely. -/
theorem consolidacao_exemplo (d1 d2 : List Char) (doc1 doc3 v1c : Cell)
    (v1 : List Char)
    (h1 : dataValida (pyStrip d1) = true)
    (h2 : dataValida (pyStrip d2) = true)
    (hv : ehCredito (pyStrip v1) = false) :
    consolidar
      [⟨some d1, doc1, some "Pagamento".toList, some v1⟩,
       ⟨none, v1c, some "Fornecedor XYZ".toList, none⟩,
       ⟨some d2, doc3, some "Saldo do dia".toList, some "1000,00 C".toList⟩]
      = ([⟨some d1, doc1, some "Pagamento Fornecedor XYZ".toList, some v1⟩], 1) := by
  have p1 : pyStrip ['P', 'a', 'g', 'a', 'm', 'e', 'n', 't', 'o']
      = ['P', 'a', 'g', 'a', 'm', 'e', 'n', 't', 'o'] := by decide
  have p2 : pyStrip ['F', 'o', 'r', 'n', 'e', 'c', 'e', 'd', 'o', 'r', ' ', 'X', 'Y', 'Z']
      = ['F', 'o', 'r', 'n', 'e', 'c', 'e', 'd', 'o', 'r', ' ', 'X', 'Y', 'Z'] := by decide
  have ehS1 : ehSaldo ['P', 'a', 'g', 'a', 'm', 'e', 'n', 't', 'o'] = false := by decide
  have ehS2 : ehSaldo ['F', 'o', 'r', 'n', 'e', 'c', 'e', 'd', 'o', 'r', ' ', 'X', 'Y', 'Z']
      = false := by decide
  have cc : ehCredito (pyStrip ['1', '0', '0', '0', ',', '0', '0', ' ', 'C']) = true := by
    decide
  have dv0 : dataValida ([] : List Char) = false := by decide
  have pf : pyStrip ['P', 'a', 'g', 'a', 'm', 'e', 'n', 't', 'o', ' ',
      'F', 'o', 'r', 'n', 'e', 'c', 'e', 'd', 'o', 'r', ' ', 'X', 'Y', 'Z']
      = ['P', 'a', 'g', 'a', 'm', 'e', 'n', 't', 'o', ' ',
         'F', 'o', 'r', 'n', 'e', 'c', 'e', 'd', 'o', 'r', ' ', 'X', 'Y', 'Z'] := by decide
  simp [consolidar, consStep, cellStr, h1, h2, hv, p1, p2, ehS1, ehS2, cc, dv0, pf]

theorem consolidacao_exemplo_witness :
    (dataValida (pyStrip "01/01/2024".toList) = true ∧
      dataValida (pyStrip "02/01/2024".toList) = true ∧
      ehCredito (pyStrip "- 125,69 D".toList) = false) ∧
    consolidar
      [⟨some "01/01/2024".toList, none, some "Pagamento".toList,
        some "- 125,69 D".toList⟩,
       ⟨none, none, some "Fornecedor XYZ".toList, none⟩,
       ⟨some "02/01/2024".toList, none, some "Saldo do dia".toList,
        some "1000,00 C".toList⟩]
      = ([⟨some "01/01/2024".toList, none, some "Pagamento Fornecedor XYZ".toList,
          some "- 125,69 D".toList⟩], 1) :=
  ⟨⟨by decide, by decide, by decide⟩,
   consolidacao_exemplo "01/01/2024".toList "02/01/2024".toList none none none
     "- 125,69 D".toList (by decide) (by decide) (by decide)⟩

/-- C4 counterexample: the phrase list used during consolidation has only
the four SALDO DO DIA/ANTERIOR/ATUAL/FINAL phrases, so a description
containing the spec phrase "Saldo bloqueado" is not treated as noise there:
as a continuation row it is appended to the active transaction instead of
being suppressed. -/
theorem frases_consolidacao_cex :
    contemAlgumaFrase8 "Saldo bloqueado".toList = true ∧
    ehSaldo "Saldo bloqueado".toList = false ∧
    (consolidar
      [⟨some "01/01/2024".toList, none, some "Pagamento".toList,
        some "- 125,69 D".toList⟩,
       ⟨none, none, some "Saldo bloqueado".toList, none⟩]).1
      = [⟨some "01/01/2024".toList, none, some "Pagamento Saldo bloqueado".toList,
          some "- 125,69 D".toList⟩] := by decide

theorem contemFrase_lower (p q hs : List Char) (h : lowerStr p = lowerStr q) :
    contemFrase p hs = contemFrase q hs := by
  simp only [contemFrase, h]

/-- C4 amended: the post-consolidation pass filters out exactly the
consolidated rows whose description contains, case-insensitively, one of the
eight noise phrases; during consolidation, however, only the four phrases
SALDO DO DIA / SALDO ANTERIOR / SALDO ATUAL / SALDO FINAL are checked (for
date-bearing and continuation rows alike), and every description they flag
is also flagged by the eight-phrase filter. -/
theorem filtro_frases_caracterizacao :
    (∀ rows : List RawRow,
      filtrarFrases rows
        = rows.filter (fun r => !contemAlgumaFrase8Cell r.historico)) ∧
    (∀ hs : List Char, ehSaldo hs = true → contemAlgumaFrase8 hs = true) := by
  constructor
  · intro rows
    rw [filtrarFrases_eq_filter]
    refine List.filter_congr (fun r _ => ?_)
    cases hr : r.historico with
    | none => decide
    | some hs =>
      simp only [frasesAIgnorar, frasesNoise8, contemAlgumaFrase8Cell,
        contemAlgumaFrase8, contemFraseCell, List.all_cons, List.all_nil,
        List.any_cons, List.any_nil]
      rw [contemFrase_lower "SALDO DO DIA".toList "saldo do dia".toList hs (by decide),
        contemFrase_lower "SALDO ANTERIOR".toList "saldo anterior".toList hs (by decide),
        contemFrase_lower "SALDO ATUAL".toList "saldo atual".toList hs (by decide),
        contemFrase_lower "SALDO FINAL".toList "saldo final".toList hs (by decide),
        contemFrase_lower "Saldo bloqueado anterior".toList
          "saldo bloqueado anterior".toList hs (by decide),
        contemFrase_lower "Saldo bloqueado".toList "saldo bloqueado".toList hs
          (by decide),
        contemFrase_lower "Saldo disponível".toList "saldo disponível".toList hs
          (by decide),
        contemFrase_lower "Saldo em conta".toList "saldo em conta".toList hs
          (by decide)]
      generalize contemFrase "saldo do dia".toList hs = a1
      generalize contemFrase "saldo anterior".toList hs = a2
      generalize contemFrase "saldo atual".toList hs = a3
      generalize contemFrase "saldo final".toList hs = a4
      generalize contemFrase "saldo bloqueado anterior".toList hs = a5
      generalize contemFrase "saldo bloqueado".toList hs = a6
      generalize contemFrase "saldo disponível".toList hs = a7
      generalize contemFrase "saldo em conta".toList hs = a8
      revert a1 a2 a3 a4 a5 a6 a7 a8
      decide
  · intro hs h
    simp only [ehSaldo, frasesSaldo4, contemAlgumaFrase8, frasesNoise8,
      contemFrase, List.any_cons, List.any_nil] at h ⊢
    rw [(by decide : lowerStr "SALDO DO DIA".toList = lowerStr "saldo do dia".toList),
      (by decide : lowerStr "SALDO ANTERIOR".toList = lowerStr "saldo anterior".toList),
      (by decide : lowerStr "SALDO ATUAL".toList = lowerStr "saldo atual".toList),
      (by decide : lowerStr "SALDO FINAL".toList = lowerStr "saldo final".toList)] at h
    revert h
    generalize containsSub (lowerStr "saldo do dia".toList) (lowerStr hs) = a1
    generalize containsSub (lowerStr "saldo anterior".toList) (lowerStr hs) = a2
    generalize containsSub (lowerStr "saldo atual".toList) (lowerStr hs) = a3
    generalize containsSub (lowerStr "saldo final".toList) (lowerStr hs) = a4
    generalize containsSub (lowerStr "saldo bloqueado anterior".toList) (lowerStr hs) = a5
    generalize containsSub (lowerStr "saldo bloqueado".toList) (lowerStr hs) = a6
    generalize containsSub (lowerStr "saldo disponível".toList) (lowerStr hs) = a7
    generalize containsSub (lowerStr "saldo em conta".toList) (lowerStr hs) = a8
    revert a1 a2 a3 a4 a5 a6 a7 a8
    decide

theorem filtro_frases_caracterizacao_witness :
    (filtrarFrases [⟨none, none, some "x Saldo bloqueado y".toList, none⟩]
        = ([⟨none, none, some "x Saldo bloqueado y".toList, none⟩] :
            List RawRow).filter (fun r => !contemAlgumaFrase8Cell r.historico)) ∧
    (ehSaldo "ver SALDO FINAL".toList = true ∧
      contemAlgumaFrase8 "ver SALDO FINAL".toList = true) :=
  ⟨filtro_frases_caracterizacao.1 _,
   by decide, filtro_frases_caracterizacao.2 "ver SALDO FINAL".toList (by decide)⟩

theorem getD_replicate_self {α : Type} (d : α) :
    ∀ (k j : Nat), (List.replicate k d).getD j d = d := by
  intro k
  induction k with
  | zero => intro j; rfl
  | succ k ih =>
    intro j
    cases j with
    | zero => rfl
    | succ j => simpa [List.replicate_succ] using ih j

theorem getD_append_replicate {α : Type} (d : α) :
    ∀ (l : List α) (k j : Nat), (l ++ List.replicate k d).getD j d = l.getD j d := by
  intro l
  induction l with
  | nil => intro k j; simpa using getD_replicate_self d k j
  | cons a l ih =>
    intro k j
    cases j with
    | zero => rfl
    | succ j => simpa using ih k j

theorem getD_set_ne {α : Type} (l : List α) (i j : Nat) (x d : α) (h : i ≠ j) :
    (l.set i x).getD j d = l.getD j d := by
  simp [List.getD, List.getElem?_set_ne h]

theorem linhaDe_escreverCelula {r r' : Nat} (h2 : 2 ≤ r) (hlt : r' < r)
    (sh : Sheet) (c : Nat) (v : XCell) :
    linhaDe (escreverCelula sh r c v) r' = linhaDe sh r' := by
  unfold linhaDe escreverCelula
  have hij : r - 1 ≠ r' - 1 := by omega
  rw [getD_set_ne _ _ _ _ _ hij, getD_append_replicate]

theorem linhaDe_escreverLancamento {r r' : Nat} (h2 : 2 ≤ r) (hlt : r' < r)
    (sh : Sheet) (l : Lancamento) :
    linhaDe (escreverLancamento sh r l) r' = linhaDe sh r' := by
  simp only [escreverLancamento, linhaDe_escreverCelula h2 hlt]

theorem linhaDe_escreverTodos :
    ∀ (ls : List Lancamento) (sh : Sheet) (r r' : Nat), 2 ≤ r → r' < r →
      linhaDe (escreverTodos sh r ls) r' = linhaDe sh r' := by
  intro ls
  induction ls with
  | nil => intro sh r r' _ _; rfl
  | cons l ls ih =>
    intro sh r r' h2 hlt
    unfold escreverTodos
    rw [ih _ (r + 1) r' (by omega) (by omega), linhaDe_escreverLancamento h2 hlt]

theorem primeiraLinhaVazia_ge (sh : Sheet) : 2 ≤ primeiraLinhaVazia sh := by
  unfold primeiraLinhaVazia
  cases hf : (List.range' 2 (maxRowDe sh - 1)).find? (fun r => linhaVazia sh r) with
  | none =>
    show 2 ≤ maxRowDe sh + 1
    have h1 : 1 ≤ maxRowDe sh := le_max_left _ _
    omega
  | some r =>
    show 2 ≤ r
    have hmem := List.mem_of_find?_eq_some hf
    have := List.mem_range'_1.mp hmem
    omega

theorem abaDe_cons (p : List Char × Sheet) (wb : Workbook) (nome : List Char) :
    abaDe (p :: wb) nome = if p.1 == nome then some p.2 else abaDe wb nome := by
  cases hbe : p.1 == nome <;> simp [abaDe, List.find?, hbe]

theorem abaDe_cons_mk (a : List Char) (b : Sheet) (wb : Workbook)
    (nome : List Char) :
    abaDe ((a, b) :: wb) nome = if a == nome then some b else abaDe wb nome :=
  abaDe_cons (a, b) wb nome

theorem abaDe_adicionar_ne (wb : Workbook) (ls : List Lancamento)
    (nome : List Char) (h : nome ≠ "Banco".toList) :
    abaDe (adicionarDadosPreservandoFormatacao wb ls) nome = abaDe wb nome := by
  induction wb with
  | nil => rfl
  | cons p wb ih =>
    have hname : ((if p.1 = "Banco".toList then
        (p.1, escreverTodos p.2 (primeiraLinhaVazia p.2) ls) else p) :
          List Char × Sheet).1 = p.1 := by
      split <;> rfl
    simp only [adicionarDadosPreservandoFormatacao, List.map_cons] at ih ⊢
    rw [abaDe_cons, abaDe_cons, hname]
    by_cases he : (p.1 == nome) = true
    · have hpn : p.1 = nome := by simpa using he
      have hb : ¬ p.1 = "Banco".toList := fun e => h (hpn ▸ e)
      rw [if_neg hb]
      simp [he]
    · have he' : (p.1 == nome) = false := by simpa using he
      have hf : ¬ (false = true) := by simp
      rw [he', if_neg hf, if_neg hf]
      exact ih

theorem abaDe_fallback (wb : Workbook) (ls : List Lancamento)
    (nome : List Char) (h : nome ≠ "Banco".toList) :
    abaDe (escreverFallback wb ls) nome
      = (abaDe wb nome).map pandasReescreveAba := by
  have hb : (("Banco".toList : List Char) == nome) = false :=
    beq_eq_false_iff_ne.mpr (fun e => h e.symm)
  unfold escreverFallback
  rw [abaDe_cons_mk, hb, if_neg (show ¬ (false = true) by simp)]
  induction wb with
  | nil => rfl
  | cons p wb ih =>
    by_cases hpb : (p.1 == "Banco".toList) = true
    · have hp1 : p.1 = "Banco".toList := by simpa using hpb
      have hq : (!(p.1 == "Banco".toList)) = false := by rw [hpb]; rfl
      have hfe : (p :: wb).filter (fun q => !(q.1 == "Banco".toList))
          = wb.filter (fun q => !(q.1 == "Banco".toList)) := by
        rw [List.filter_cons, hq, if_neg (show ¬ (false = true) by simp)]
      rw [hfe, abaDe_cons]
      have hpn : (p.1 == nome) = false :=
        beq_eq_false_iff_ne.mpr (fun e => h (e.symm.trans hp1))
      rw [hpn, if_neg (show ¬ (false = true) by simp)]
      exact ih
    · have hpb' : (p.1 == "Banco".toList) = false := by simpa using hpb
      have hq : (!(p.1 == "Banco".toList)) = true := by rw [hpb']; rfl
      have hfe : (p :: wb).filter (fun q => !(q.1 == "Banco".toList))
          = p :: wb.filter (fun q => !(q.1 == "Banco".toList)) := by
        rw [List.filter_cons, hq, if_pos rfl]
      rw [hfe, List.map_cons, abaDe_cons_mk, abaDe_cons]
      by_cases hpn : (p.1 == nome) = true
      · rw [hpn, if_pos rfl, if_pos rfl]
        rfl
      · have hpn' : (p.1 == nome) = false := by simpa using hpn
        rw [hpn', if_neg (show ¬ (false = true) by simp),
          if_neg (show ¬ (false = true) by simp)]
        exact ih

/-- C8 counterexample: when the formatted writer fails, the pandas fallback
(lines 651–663) rewrites the non-Banco sheets: on a "Base de dados" sheet
whose header row has a blank cell between named ones — as the template
creates it — the blank header cell comes back as the text "Unnamed: 1", so
the pipeline does not leave every other sheet unchanged. -/
theorem base_dados_alterada_cex :
    abaDe
      (escreverComFallback false
        [("Banco".toList, [[XCell.texto "Data Vencimento".toList]]),
         ("Base de dados".toList,
          [[XCell.texto "Nome".toList, XCell.vazia,
            XCell.texto "Conta Contábil".toList]])]
        [⟨"01/02/2024".toList, "luz".toList, mkRat 5 1, none⟩])
      "Base de dados".toList
    ≠ abaDe
        [("Banco".toList, [[XCell.texto "Data Vencimento".toList]]),
         ("Base de dados".toList,
          [[XCell.texto "Nome".toList, XCell.vazia,
            XCell.texto "Conta Contábil".toList]])]
        "Base de dados".toList := by decide

/-- C8 amended: on the formatted-writer path the write step modifies only
the sheet named "Banco" — every other sheet, in particular "Base de dados",
is returned unchanged, and within "Banco" every row strictly before the
first empty row found by the scan from row 2 keeps its cells.  When the
formatted writer fails, the pandas fallback rewrites every other sheet as
its read_excel/to_excel round trip (blank header cells renamed
"Unnamed: j"), so other sheets are untouched only on the formatted path. -/
theorem escrita_banco_e_fallback :
    (∀ (wb : Workbook) (ls : List Lancamento) (nome : List Char),
      nome ≠ "Banco".toList →
      abaDe (escreverComFallback true wb ls) nome = abaDe wb nome) ∧
    (∀ (sh : Sheet) (ls : List Lancamento) (r : Nat),
      r < primeiraLinhaVazia sh →
      linhaDe (escreverTodos sh (primeiraLinhaVazia sh) ls) r = linhaDe sh r) ∧
    (∀ (wb : Workbook) (ls : List Lancamento) (nome : List Char),
      nome ≠ "Banco".toList →
      abaDe (escreverComFallback false wb ls) nome
        = (abaDe wb nome).map pandasReescreveAba) := by
  refine ⟨?_, ?_, ?_⟩
  · intro wb ls nome h
    have he : escreverComFallback true wb ls
        = adicionarDadosPreservandoFormatacao wb ls := rfl
    rw [he]
    exact abaDe_adicionar_ne wb ls nome h
  · intro sh ls r hr
    exact linhaDe_escreverTodos ls sh _ r (primeiraLinhaVazia_ge sh) hr
  · intro wb ls nome h
    have he : escreverComFallback false wb ls = escreverFallback wb ls := rfl
    rw [he]
    exact abaDe_fallback wb ls nome h

theorem escrita_banco_e_fallback_witness :
    ("Base de dados".toList ≠ "Banco".toList ∧
      abaDe
        (escreverComFallback true
          [("Banco".toList, [[XCell.texto "Data Vencimento".toList]]),
           ("Base de dados".toList,
            [[XCell.texto "Nome".toList, XCell.vazia,
              XCell.texto "Conta Contábil".toList]])]
          [⟨"01/02/2024".toList, "luz".toList, mkRat 5 1, none⟩])
        "Base de dados".toList
      = abaDe
          [("Banco".toList, [[XCell.texto "Data Vencimento".toList]]),
           ("Base de dados".toList,
            [[XCell.texto "Nome".toList, XCell.vazia,
              XCell.texto "Conta Contábil".toList]])]
          "Base de dados".toList ∧
      abaDe
        (escreverComFallback false
          [("Banco".toList, [[XCell.texto "Data Vencimento".toList]]),
           ("Base de dados".toList,
            [[XCell.texto "Nome".toList, XCell.vazia,
              XCell.texto "Conta Contábil".toList]])]
          [⟨"01/02/2024".toList, "luz".toList, mkRat 5 1, none⟩])
        "Base de dados".toList
      = (abaDe
          [("Banco".toList, [[XCell.texto "Data Vencimento".toList]]),
           ("Base de dados".toList,
            [[XCell.texto "Nome".toList, XCell.vazia,
              XCell.texto "Conta Contábil".toList]])]
          "Base de dados".toList).map pandasReescreveAba) ∧
    (1 < primeiraLinhaVazia [[XCell.texto "Data Vencimento".toList]] ∧
      linhaDe
        (escreverTodos [[XCell.texto "Data Vencimento".toList]]
          (primeiraLinhaVazia [[XCell.texto "Data Vencimento".toList]])
          [⟨"01/02/2024".toList, "luz".toList, mkRat 5 1, none⟩]) 1
        = linhaDe [[XCell.texto "Data Vencimento".toList]] 1) :=
  ⟨⟨by decide, escrita_banco_e_fallback.1 _ _ _ (by decide),
    escrita_banco_e_fallback.2.2 _ _ _ (by decide)⟩,
   ⟨by decide, escrita_banco_e_fallback.2.1 _ _ 1 (by decide)⟩⟩

theorem chaveBanco_paraBancoRow (l : Lancamento) :
    chaveBanco (paraBancoRow l) = some (chaveLancamento l) := rfl

theorem filtrar_apos_inclusao (novos : List Lancamento) (banco : List BancoRow) :
    filtrarDuplicatas novos
      (banco ++ (filtrarDuplicatas novos banco).map paraBancoRow) = [] := by
  refine List.filter_eq_nil_iff.mpr (fun l hl => ?_)
  suffices hmem : chaveLancamento l ∈
      chavesBanco (banco ++ (filtrarDuplicatas novos banco).map paraBancoRow) by
    simpa using hmem
  have happ : chavesBanco (banco ++ (filtrarDuplicatas novos banco).map paraBancoRow)
      = chavesBanco banco
        ++ chavesBanco ((filtrarDuplicatas novos banco).map paraBancoRow) :=
    List.filterMap_append _ _ _
  rw [happ]
  by_cases hb : chaveLancamento l ∈ chavesBanco banco
  · exact List.mem_append_left _ hb
  · refine List.mem_append_right _ ?_
    have hl' : l ∈ filtrarDuplicatas novos banco :=
      List.mem_filter.mpr ⟨hl, by simpa using hb⟩
    exact List.mem_filterMap.mpr
      ⟨paraBancoRow l, List.mem_map_of_mem _ hl', chaveBanco_paraBancoRow l⟩

theorem resultado_todo_duplicado (ncols : Nat) (linhas : List (List Cell))
    (banco : List BancoRow)
    (h : filtrarDuplicatas (novosDe ncols linhas) banco = []) :
    (processarExtratoIndividual ncols linhas banco).1.novosLancamentos = 0 ∧
    (processarExtratoIndividual ncols linhas banco).1.duplicatasIgnoradas
      = (processarExtratoIndividual ncols linhas banco).1.debitosEncontrados := by
  have hlen : (novosDe ncols linhas).length = (debitosDe ncols linhas).length :=
    List.length_map _ _
  unfold processarExtratoIndividual
  split_ifs with c1 c2 c3 c4 c5 c6
  · simp [errResultado]
  · simp [errResultado]
  · simp [errResultado]
  · simp [okResultado]
  · simp [okResultado]
  · simp [okResultado, h, hlen]
  · exact absurd (by simp [h]) c6

theorem novos_nil_of_consolidado_nil (ncols : Nat) (linhas : List (List Cell))
    (h : (consolidado ncols linhas).isEmpty = true) : novosDe ncols linhas = [] := by
  have h0 : consolidado ncols linhas = [] := List.isEmpty_iff.mp h
  simp [novosDe, debitosDe, h0, aposFiltros, filtrarFrases_eq_filter, debitosValidos]

theorem chaves_cobertas (ncols : Nat) (linhas : List (List Cell))
    (banco : List BancoRow)
    (hs : (processarExtratoIndividual ncols linhas banco).1.sucesso = true) :
    filtrarDuplicatas (novosDe ncols linhas)
      (processarExtratoIndividual ncols linhas banco).2 = [] := by
  unfold processarExtratoIndividual at hs ⊢
  split_ifs at hs ⊢ with c1 c2 c3 c4 c5 c6
  · simp [errResultado] at hs
  · simp [errResultado] at hs
  · simp [errResultado] at hs
  · simp [novos_nil_of_consolidado_nil ncols linhas c4, filtrarDuplicatas]
  · simp [novosDe, List.isEmpty_iff.mp c5, filtrarDuplicatas]
  · simpa using List.isEmpty_iff.mp c6
  · exact filtrar_apos_inclusao _ _

/-- C1: if one run of the pipeline succeeds and its new entries are
appended, a second run of the same statement against the resulting ledger
reports zero new entries, every found debit being counted as a duplicate. -/
theorem pipeline_idempotente (ncols : Nat) (linhas : List (List Cell))
    (banco : List BancoRow) (r₁ r₂ : Resultado) (b₁ b₂ : List BancoRow)
    (h1 : processarExtratoIndividual ncols linhas banco = (r₁, b₁))
    (hs : r₁.sucesso = true)
    (h2 : processarExtratoIndividual ncols linhas b₁ = (r₂, b₂)) :
    r₂.novosLancamentos = 0 ∧
    r₂.duplicatasIgnoradas = r₂.debitosEncontrados := by
  have hcov := chaves_cobertas ncols linhas banco (by rw [h1]; exact hs)
  rw [h1] at hcov
  have hres := resultado_todo_duplicado ncols linhas b₁ hcov
  rw [h2] at hres
  exact hres

theorem pipeline_idempotente_witness :
    ((processarExtratoIndividual 4
        [[some "01/02/2024".toList, some "1".toList, some "Pagamento X".toList,
          some "- 125,69 D".toList]] []).1.sucesso = true) ∧
    ((processarExtratoIndividual 4
        [[some "01/02/2024".toList, some "1".toList, some "Pagamento X".toList,
          some "- 125,69 D".toList]]
        (processarExtratoIndividual 4
          [[some "01/02/2024".toList, some "1".toList, some "Pagamento X".toList,
            some "- 125,69 D".toList]] []).2).1.novosLancamentos = 0 ∧
      (processarExtratoIndividual 4
        [[some "01/02/2024".toList, some "1".toList, some "Pagamento X".toList,
          some "- 125,69 D".toList]]
        (processarExtratoIndividual 4
          [[some "01/02/2024".toList, some "1".toList, some "Pagamento X".toList,
            some "- 125,69 D".toList]] []).2).1.duplicatasIgnoradas
        = (processarExtratoIndividual 4
            [[some "01/02/2024".toList, some "1".toList, some "Pagamento X".toList,
              some "- 125,69 D".toList]]
            (processarExtratoIndividual 4
              [[some "01/02/2024".toList, some "1".toList, some "Pagamento X".toList,
                some "- 125,69 D".toList]] []).2).1.debitosEncontrados) :=
  ⟨by decide,
   pipeline_idempotente 4
     [[some "01/02/2024".toList, some "1".toList, some "Pagamento X".toList,
       some "- 125,69 D".toList]] [] _ _ _ _ rfl (by decide) rfl⟩

/-- C7: in the Format B pipeline a cleaned row yields a debit entry exactly
when its numeric amount is strictly negative, and the entry stores the
absolute value of that amount. -/
theorem novo_formato_debito_iff (rows : List RowB) (r : RowB) :
    r ∈ debitosNovoFormato rows ↔
      ∃ r₀ ∈ limpezaB rows, ∃ q : ℚ, r₀.valor = some q ∧ q < 0 ∧
        r = { r₀ with valor := some (absQ q) } := by
  unfold debitosNovoFormato
  constructor
  · intro h
    rcases List.mem_map.mp h with ⟨r₀, hr₀, rfl⟩
    rcases List.mem_filter.mp hr₀ with ⟨hmem, hneg⟩
    unfold valorNegativo at hneg
    cases hv : r₀.valor with
    | none => rw [hv] at hneg; cases hneg
    | some q =>
      rw [hv] at hneg
      exact ⟨r₀, hmem, q, hv, of_decide_eq_true hneg, by simp [hv]⟩
  · rintro ⟨r₀, hmem, q, hv, hq, rfl⟩
    refine List.mem_map.mpr ⟨r₀, List.mem_filter.mpr ⟨hmem, ?_⟩, by simp [hv]⟩
    unfold valorNegativo
    rw [hv]
    exact decide_eq_true hq

/-! ## Character-class and normalization lemmas for the Format A parser -/

theorem wsChar_cases (c : Char) (h : wsChar c = true) :
    c = ' ' ∨ c = '\t' ∨ c = '\n' ∨ c = '\r' ∨ c = '\x0b' ∨ c = '\x0c' := by
  have h' := h
  simp only [wsChar, Bool.or_eq_true, beq_iff_eq] at h'
  tauto

theorem numChar_not_ws (c : Char) (h : numChar c = true) : wsChar c = false := by
  cases hw : wsChar c
  · rfl
  · rcases wsChar_cases c hw with rfl | rfl | rfl | rfl | rfl | rfl <;>
      exact absurd h (by decide)

theorem numChar_ne_minus (c : Char) (h : numChar c = true) : c ≠ '-' := by
  intro he; rw [he] at h; exact absurd h (by decide)

theorem isDigit_ne_dot (c : Char) (h : c.isDigit = true) : c ≠ '.' := by
  intro he; rw [he] at h; exact absurd h (by decide)

theorem isDigit_ne_comma (c : Char) (h : c.isDigit = true) : c ≠ ',' := by
  intro he; rw [he] at h; exact absurd h (by decide)

theorem tiraMinus_decomp (l : List Char) :
    ∃ m, (m = [] ∨ m = ['-']) ∧ l = m ++ tiraMinus l := by
  rcases l with _ | ⟨c, r⟩
  · exact ⟨[], Or.inl rfl, rfl⟩
  · by_cases hc : c = '-'
    · subst hc; exact ⟨['-'], Or.inr rfl, by simp [tiraMinus]⟩
    · exact ⟨[], Or.inl rfl, by simp [tiraMinus, hc]⟩

theorem tiraMinus_cons_ne (c : Char) (r : List Char) (h : c ≠ '-') :
    tiraMinus (c :: r) = c :: r := by
  simp [tiraMinus, h]

theorem tiraMinus_minus (r : List Char) : tiraMinus ('-' :: r) = r := by
  simp [tiraMinus]

theorem collapseAux_cons_not_ws (b : Bool) (c : Char) (r : List Char)
    (h : wsChar c = false) :
    collapseWsAux b (c :: r) = c :: collapseWsAux false r := by
  simp [collapseWsAux, h]

theorem collapseAux_nonws :
    ∀ (xs : List Char), xs ≠ [] → (∀ c ∈ xs, wsChar c = false) →
      ∀ (b : Bool) (r : List Char),
        collapseWsAux b (xs ++ r) = xs ++ collapseWsAux false r := by
  intro xs
  induction xs with
  | nil => intro h; exact absurd rfl h
  | cons c xs ih =>
    intro _ hall b r
    rw [List.cons_append, collapseAux_cons_not_ws b c _ (hall c (by simp))]
    rcases xs with _ | ⟨d, xs'⟩
    · simp
    · rw [ih (by simp) (fun c hc => hall c (by simp [hc])) false r]
      simp

theorem collapseAux_ws_true :
    ∀ (w : List Char), (∀ c ∈ w, wsChar c = true) →
      ∀ r, collapseWsAux true (w ++ r) = collapseWsAux true r := by
  intro w
  induction w with
  | nil => intro _ r; rfl
  | cons c w ih =>
    intro hall r
    rw [List.cons_append]
    show collapseWsAux true (c :: (w ++ r)) = _
    rw [show collapseWsAux true (c :: (w ++ r)) = collapseWsAux true (w ++ r) by
      simp [collapseWsAux, hall c (by simp)]]
    exact ih (fun c hc => hall c (by simp [hc])) r

theorem collapseAux_ws_false (w : List Char) (hne : w ≠ [])
    (hall : ∀ c ∈ w, wsChar c = true) (r : List Char) :
    collapseWsAux false (w ++ r) = ' ' :: collapseWsAux true r := by
  rcases w with _ | ⟨c, w⟩
  · exact absurd rfl hne
  · rw [List.cons_append]
    rw [show collapseWsAux false (c :: (w ++ r)) = ' ' :: collapseWsAux true (w ++ r) by
      simp [collapseWsAux, hall c (by simp)]]
    rw [collapseAux_ws_true w (fun c hc => hall c (by simp [hc])) r]

theorem rstrip_concat (l : List Char) (f : Char) (h : wsChar f = false) :
    ((l ++ [f]).reverse.dropWhile wsChar).reverse = l ++ [f] := by
  have hrev : (l ++ [f]).reverse = f :: l.reverse := by simp
  rw [hrev, List.dropWhile_cons_of_neg (by simp [h]), ← hrev, List.reverse_reverse]

theorem sicoobMatch_clean (num : List Char) (f : Char) (sp1 sp2 : List Char)
    (hnum : isSicoobNum num = true)
    (hchars : ∀ c ∈ num, numChar c = true)
    (hne : num ≠ [])
    (hsp1 : sp1 = [] ∨ sp1 = [' ']) (hsp2 : sp2 = [] ∨ sp2 = [' '])
    (hf : (f == 'D' || f == 'C') = true) :
    sicoobMatch (sp1 ++ (num ++ (sp2 ++ [f]))) = some (num, f) ∧
    sicoobMatch ('-' :: (sp1 ++ (num ++ (sp2 ++ [f])))) = some (num, f) := by
  rcases num with _ | ⟨n0, ntail⟩
  · exact absurd rfl hne
  have hn0 : numChar n0 = true := hchars n0 (by simp)
  have hn0ws : wsChar n0 = false := numChar_not_ws _ hn0
  have hn0m : n0 ≠ '-' := numChar_ne_minus _ hn0
  have hfDC : f = 'D' ∨ f = 'C' := by simpa using hf
  have hfnum : numChar f = false := by rcases hfDC with rfl | rfl <;> decide
  have hfws : wsChar f = false := by rcases hfDC with rfl | rfl <;> decide
  have hdrop : (sp1 ++ ((n0 :: ntail) ++ (sp2 ++ [f]))).dropWhile wsChar
      = (n0 :: ntail) ++ (sp2 ++ [f]) := by
    rcases hsp1 with rfl | rfl
    · rw [List.nil_append, List.cons_append,
        List.dropWhile_cons_of_neg (by simp [hn0ws])]
    · rw [List.singleton_append,
        List.dropWhile_cons_of_pos (show wsChar ' ' = true by decide),
        List.cons_append, List.dropWhile_cons_of_neg (by simp [hn0ws])]
  have hsp2take : ((sp2 ++ [f]) : List Char).takeWhile numChar = [] := by
    rcases hsp2 with rfl | rfl
    · rw [List.nil_append, List.takeWhile_cons_of_neg (by simp [hfnum])]
    · rw [List.singleton_append,
        List.takeWhile_cons_of_neg (show ¬ numChar ' ' = true by decide)]
  have hsp2drop : ((sp2 ++ [f]) : List Char).dropWhile numChar = sp2 ++ [f] := by
    rcases hsp2 with rfl | rfl
    · rw [List.nil_append, List.dropWhile_cons_of_neg (by simp [hfnum])]
    · rw [List.singleton_append,
        List.dropWhile_cons_of_neg (show ¬ numChar ' ' = true by decide)]
  have htake : ((n0 :: ntail) ++ (sp2 ++ [f])).takeWhile numChar = n0 :: ntail := by
    rw [List.takeWhile_append_of_pos hchars, hsp2take, List.append_nil]
  have hdropn : ((n0 :: ntail) ++ (sp2 ++ [f])).dropWhile numChar = sp2 ++ [f] := by
    rw [List.dropWhile_append_of_pos hchars, hsp2drop]
  have hlast : ((sp2 ++ [f]) : List Char).dropWhile wsChar = [f] := by
    rcases hsp2 with rfl | rfl
    · rw [List.nil_append, List.dropWhile_cons_of_neg (by simp [hfws])]
    · rw [List.singleton_append,
        List.dropWhile_cons_of_pos (show wsChar ' ' = true by decide),
        List.dropWhile_cons_of_neg (by simp [hfws])]
  have htm : tiraMinus (sp1 ++ ((n0 :: ntail) ++ (sp2 ++ [f])))
      = sp1 ++ ((n0 :: ntail) ++ (sp2 ++ [f])) := by
    rcases hsp1 with rfl | rfl
    · rw [List.nil_append, List.cons_append, tiraMinus_cons_ne _ _ hn0m,
        ← List.cons_append]
    · rw [List.singleton_append, tiraMinus_cons_ne ' ' _ (by decide)]
  constructor
  · simp only [sicoobMatch]
    rw [htm, hdrop, htake, hdropn, hlast, if_pos hnum]
    simp [hf]
  · simp only [sicoobMatch]
    rw [tiraMinus_minus, hdrop, htake, hdropn, hlast, if_pos hnum]
    simp [hf]

theorem map_id_of_mem {α : Type} (g : α → α) :
    ∀ (l : List α), (∀ c ∈ l, g c = c) → l.map g = l := by
  intro l
  induction l with
  | nil => intro _; rfl
  | cons a l ih =>
    intro h
    rw [List.map_cons, h a (by simp), ih (fun c hc => h c (by simp [hc]))]

theorem pyFloat_sicoobNum (num : List Char)
    (hnum : isSicoobNum num = true)
    (hchars : ∀ c ∈ num, numChar c = true) :
    ∃ v : ℚ, pyFloat ((num.filter (fun c => c != '.')).map
        (fun c => if c == ',' then '.' else c)) = some v ∧ 0 ≤ v := by
  simp only [isSicoobNum] at hnum
  rcases hsplit : num.dropWhile (fun c => c != ',') with _ | ⟨c0, dp⟩
  · rw [hsplit] at hnum; simp at hnum
  rw [hsplit] at hnum
  simp only [Bool.and_eq_true, beq_iff_eq, decide_eq_true_eq,
    List.all_eq_true] at hnum
  obtain ⟨⟨⟨hc0, hlen⟩, hdig⟩, _hip⟩ := hnum
  subst hc0
  have hnumdec : num = num.takeWhile (fun c => c != ',') ++ ',' :: dp := by
    conv_lhs => rw [← List.takeWhile_append_dropWhile (fun c => c != ',') num]
    rw [hsplit]
  set ip := num.takeWhile (fun c => c != ',') with hipdef
  have hipne : ∀ c ∈ ip, (c != ',') = true := by
    intro c hc
    rw [hipdef] at hc
    have h0 := List.mem_takeWhile_imp hc
    simpa using h0
  have hipmem_num : ∀ c ∈ ip, c ∈ num := fun c hc => by
    rw [hnumdec]; exact List.mem_append_left _ hc
  have hip_dig : ∀ c ∈ ip.filter (fun c => c != '.'), c.isDigit = true := by
    intro c hc
    rcases List.mem_filter.mp hc with ⟨hci, hcg⟩
    have hcnum := hchars c (hipmem_num c hci)
    have h1 : ¬ c = '.' := by simpa using hcg
    have h2 : ¬ c = ',' := by simpa using hipne c hci
    simp only [numChar, Bool.or_eq_true, beq_iff_eq] at hcnum
    rcases hcnum with (hd | hdot) | hcomma
    · exact hd
    · exact absurd hdot h1
    · exact absurd hcomma h2
  have hfilter : num.filter (fun c => c != '.')
      = ip.filter (fun c => c != '.') ++ ',' :: dp := by
    conv_lhs => rw [hnumdec]
    rw [List.filter_append, List.filter_cons_of_pos (by decide)]
    congr 2
    exact List.filter_eq_self.mpr (fun c hc => by
      simpa using isDigit_ne_dot c (hdig c hc))
  have hmap : (num.filter (fun c => c != '.')).map (fun c => if c == ',' then '.' else c)
      = ip.filter (fun c => c != '.') ++ '.' :: dp := by
    rw [hfilter, List.map_append, List.map_cons]
    congr 1
    · exact map_id_of_mem _ _ (fun c hc => by
        simp [isDigit_ne_comma c (hip_dig c hc)])
    · rw [show ((if (',' == ',') = true then '.' else ',') : Char) = '.' by simp]
      rw [map_id_of_mem _ _ (fun c hc => by
        simp [isDigit_ne_comma c (hdig c hc)])]
  set T := ip.filter (fun c => c != '.') ++ '.' :: dp with hTdef
  have hall : T.all (fun c => c.isDigit || c == '.') = true := by
    rw [List.all_eq_true]
    intro c hc
    rw [hTdef] at hc
    rcases List.mem_append.mp hc with hl | hr
    · simp [hip_dig c hl]
    · rcases List.mem_cons.mp hr with rfl | hdp
      · simp
      · simp [hdig c hdp]
  have hcount : T.count '.' ≤ 1 := by
    have h1 : (ip.filter (fun c => c != '.')).count '.' = 0 :=
      List.count_eq_zero.mpr (fun h => absurd (hip_dig '.' h) (by decide))
    have h2 : dp.count '.' = 0 :=
      List.count_eq_zero.mpr (fun h => absurd (hdig '.' h) (by decide))
    rw [hTdef, List.count_append, h1, List.count_cons]
    simp [h2]
  have hany : T.any Char.isDigit = true := by
    rcases dp with _ | ⟨d1, dp'⟩
    · simp at hlen
    · rw [List.any_eq_true]
      exact ⟨d1, by rw [hTdef]; simp, hdig d1 (by simp)⟩
  have hT : ∃ c ts, T = c :: ts ∧ ¬ c = '-' := by
    rcases hfz : ip.filter (fun c => c != '.') with _ | ⟨c, rest⟩
    · exact ⟨'.', dp, by rw [hTdef, hfz, List.nil_append], by decide⟩
    · refine ⟨c, rest ++ '.' :: dp, by rw [hTdef, hfz, List.cons_append], ?_⟩
      have hcd : c.isDigit = true := hip_dig c (by rw [hfz]; simp)
      intro he; rw [he] at hcd; exact absurd hcd (by decide)
  obtain ⟨c, ts, hTeq, hcm⟩ := hT
  refine ⟨mkRat
      (digitsToNat (T.takeWhile (fun c => c != '.')) * 10 ^ (fracDigits T).length
        + digitsToNat (fracDigits T))
      (10 ^ (fracDigits T).length), ?_, ?_⟩
  · rw [hmap, hTeq]
    simp only [pyFloat]
    rw [if_neg hcm, ← hTeq]
    simp only [pyFloatAux]
    rw [if_pos (by rw [hall, hany]; simp [hcount])]
  · rw [Rat.mkRat_eq_div]
    positivity

theorem sicoobMatch_inv (s num : List Char) (f : Char)
    (h : sicoobMatch s = some (num, f)) :
    isSicoobNum num = true ∧ (∀ c ∈ num, numChar c = true) ∧
    (pyStrip s).isEmpty = false ∧ ((pyStrip s) == "nan".toList) = false ∧
    sicoobMatch (collapseWs (pyStrip s)) = some (num, f) := by
  simp only [sicoobMatch] at h
  by_cases hnum : isSicoobNum (((tiraMinus s).dropWhile wsChar).takeWhile numChar) = true
  case neg => rw [if_neg hnum] at h; cases h
  rw [if_pos hnum] at h
  rcases hrest : (((tiraMinus s).dropWhile wsChar).dropWhile numChar).dropWhile wsChar
    with _ | ⟨f', rest'⟩
  · rw [hrest] at h; cases h
  rcases rest' with _ | ⟨g, rest''⟩
  swap
  · rw [hrest] at h; cases h
  rw [hrest] at h
  have h : (if (f' == 'D' || f' == 'C') = true
      then some (((tiraMinus s).dropWhile wsChar).takeWhile numChar, f') else none)
      = some (num, f) := h
  by_cases hfb : (f' == 'D' || f' == 'C') = true
  case neg => rw [if_neg hfb] at h; cases h
  rw [if_pos hfb] at h
  have hinj := Option.some.inj h
  have hnumeq : ((tiraMinus s).dropWhile wsChar).takeWhile numChar = num :=
    congrArg Prod.fst hinj
  have hfeq : f = f' := (congrArg Prod.snd hinj).symm
  subst hfeq
  rw [hnumeq] at hnum
  have hchars : ∀ c ∈ num, numChar c = true := by
    intro c hc
    rw [← hnumeq] at hc
    have h0 := List.mem_takeWhile_imp hc
    simpa using h0
  have hne : num ≠ [] := by
    intro e; rw [e] at hnum; exact absurd hnum (by decide)
  have hfws : wsChar f = false := by
    rcases (by simpa using hfb : f = 'D' ∨ f = 'C') with rfl | rfl <;> decide
  have hw2eq : ((tiraMinus s).dropWhile wsChar).dropWhile numChar
      = (((tiraMinus s).dropWhile wsChar).dropWhile numChar).takeWhile wsChar ++ [f] := by
    conv_lhs => rw [← List.takeWhile_append_dropWhile wsChar
      (((tiraMinus s).dropWhile wsChar).dropWhile numChar)]
    rw [hrest]
  set w2 := (((tiraMinus s).dropWhile wsChar).dropWhile numChar).takeWhile wsChar
    with hw2def
  have hw2ws : ∀ c ∈ w2, wsChar c = true := by
    intro c hc
    rw [hw2def] at hc
    have h0 := List.mem_takeWhile_imp hc
    simpa using h0
  have hl2dec : (tiraMinus s).dropWhile wsChar = num ++ (w2 ++ [f]) := by
    conv_lhs => rw [← List.takeWhile_append_dropWhile numChar
      ((tiraMinus s).dropWhile wsChar)]
    rw [hnumeq, hw2eq]
  set w1 := (tiraMinus s).takeWhile wsChar with hw1def
  have hw1ws : ∀ c ∈ w1, wsChar c = true := by
    intro c hc
    rw [hw1def] at hc
    have h0 := List.mem_takeWhile_imp hc
    simpa using h0
  have htmdec : tiraMinus s = w1 ++ (tiraMinus s).dropWhile wsChar := by
    conv_lhs => rw [← List.takeWhile_append_dropWhile wsChar (tiraMinus s)]
  obtain ⟨n0, ntail, hcons⟩ : ∃ n0 ntail, num = n0 :: ntail := by
    rcases num with _ | ⟨a, b⟩
    · exact absurd rfl hne
    · exact ⟨a, b, rfl⟩
  have hn0ws : wsChar n0 = false :=
    numChar_not_ws _ (hchars n0 (by rw [hcons]; simp))
  have hl2drop : ((tiraMinus s).dropWhile wsChar).dropWhile wsChar
      = (tiraMinus s).dropWhile wsChar := by
    conv_lhs => rw [hl2dec, hcons]
    conv_rhs => rw [hl2dec, hcons]
    rw [List.cons_append, List.dropWhile_cons_of_neg (by simp [hn0ws])]
  have hnonws : ∀ c ∈ num, wsChar c = false :=
    fun c hc => numChar_not_ws c (hchars c hc)
  have hcolMain : ∃ sp2, (sp2 = [] ∨ sp2 = [' ']) ∧
      collapseWsAux false (num ++ (w2 ++ [f])) = num ++ (sp2 ++ [f]) ∧
      collapseWsAux true (num ++ (w2 ++ [f])) = num ++ (sp2 ++ [f]) := by
    have htail : ∃ sp2, (sp2 = [] ∨ sp2 = [' ']) ∧
        collapseWsAux false (w2 ++ [f]) = sp2 ++ [f] := by
      by_cases hw2 : w2 = []
      · refine ⟨[], Or.inl rfl, ?_⟩
        rw [hw2, List.nil_append, collapseAux_cons_not_ws false f [] hfws]
        rfl
      · refine ⟨[' '], Or.inr rfl, ?_⟩
        rw [collapseAux_ws_false w2 hw2 hw2ws [f],
          collapseAux_cons_not_ws true f [] hfws]
        rfl
    obtain ⟨sp2, hsp2, htail⟩ := htail
    exact ⟨sp2, hsp2,
      by rw [collapseAux_nonws num hne hnonws false (w2 ++ [f]), htail],
      by rw [collapseAux_nonws num hne hnonws true (w2 ++ [f]), htail]⟩
  obtain ⟨sp2, hsp2, hcolF, hcolT⟩ := hcolMain
  obtain ⟨m, hm, hsdec⟩ := tiraMinus_decomp s
  rcases hm with rfl | rfl
  · -- no leading minus: the strip removes the leading whitespace entirely
    have hs' : s = w1 ++ (tiraMinus s).dropWhile wsChar := by
      conv_lhs => rw [hsdec, List.nil_append, htmdec]
    have hstrip : pyStrip s = num ++ (w2 ++ [f]) := by
      unfold pyStrip
      have hd : s.dropWhile wsChar = num ++ (w2 ++ [f]) := by
        conv_lhs => rw [hs']
        rw [List.dropWhile_append_of_pos hw1ws, hl2drop, hl2dec]
      rw [hd, show num ++ (w2 ++ [f]) = (num ++ w2) ++ [f] by rw [List.append_assoc],
        rstrip_concat _ _ hfws]
    have hlastf : (pyStrip s).getLast? = some f := by
      rw [hstrip, show num ++ (w2 ++ [f]) = (num ++ w2) ++ [f] by rw [List.append_assoc],
        List.getLast?_concat]
    refine ⟨hnum, hchars, ?_, ?_, ?_⟩
    · rw [hstrip, hcons, List.cons_append]
      rfl
    · refine beq_eq_false_iff_ne.mpr (fun he => ?_)
      rw [he] at hlastf
      rcases (by simpa using hfb : f = 'D' ∨ f = 'C') with rfl | rfl <;>
        exact absurd hlastf (by decide)
    · rw [hstrip]
      have hclean := (sicoobMatch_clean num f [] sp2 hnum hchars hne
        (Or.inl rfl) hsp2 hfb).1
      rw [List.nil_append] at hclean
      rw [show collapseWs (num ++ (w2 ++ [f])) = num ++ (sp2 ++ [f]) from hcolF]
      exact hclean
  · -- leading minus: the strip keeps the interior whitespace w1
    have hs' : s = '-' :: (w1 ++ (tiraMinus s).dropWhile wsChar) := by
      conv_lhs => rw [hsdec, htmdec]
      rfl
    have hstrip : pyStrip s = '-' :: (w1 ++ (num ++ (w2 ++ [f]))) := by
      unfold pyStrip
      have hd : s.dropWhile wsChar = '-' :: (w1 ++ (num ++ (w2 ++ [f]))) := by
        conv_lhs => rw [hs']
        rw [List.dropWhile_cons_of_neg (by decide), hl2dec]
      rw [hd, show ('-' :: (w1 ++ (num ++ (w2 ++ [f]))) : List Char)
          = ('-' :: (w1 ++ (num ++ w2))) ++ [f] by simp [List.append_assoc],
        rstrip_concat _ _ hfws]
    have hlastf : (pyStrip s).getLast? = some f := by
      rw [hstrip, show ('-' :: (w1 ++ (num ++ (w2 ++ [f]))) : List Char)
          = ('-' :: (w1 ++ (num ++ w2))) ++ [f] by simp [List.append_assoc],
        List.getLast?_concat]
    refine ⟨hnum, hchars, ?_, ?_, ?_⟩
    · rw [hstrip]; rfl
    · refine beq_eq_false_iff_ne.mpr (fun he => ?_)
      rw [he] at hlastf
      rcases (by simpa using hfb : f = 'D' ∨ f = 'C') with rfl | rfl <;>
        exact absurd hlastf (by decide)
    · rw [hstrip]
      unfold collapseWs
      rw [collapseAux_cons_not_ws false '-' _ (by decide)]
      by_cases hw1 : w1 = []
      · have hclean := (sicoobMatch_clean num f [] sp2 hnum hchars hne
          (Or.inl rfl) hsp2 hfb).2
        rw [List.nil_append] at hclean
        rw [hw1, List.nil_append, hcolF]
        exact hclean
      · have hclean := (sicoobMatch_clean num f [' '] sp2 hnum hchars hne
          (Or.inr rfl) hsp2 hfb).2
        rw [List.singleton_append] at hclean
        rw [collapseAux_ws_false w1 hw1 hw1ws _, hcolT]
        exact hclean

/-- C3: every string matching the Format A regex is parsed by
`processar_formato_valor_sicoob` as the claim states: with flag D the result
is the (non-negative) decimal value obtained by deleting the thousands dots
and turning the comma into a dot; with flag C the result is the
not-a-debit sentinel. -/
theorem formato_a_valor (s num : List Char) (f : Char)
    (h : sicoobMatch s = some (num, f)) :
    (f = 'C' → processarFormatoValorSicoob s = none) ∧
    (f = 'D' → ∃ v : ℚ,
      pyFloat ((num.filter (fun c => c != '.')).map
        (fun c => if c == ',' then '.' else c)) = some v ∧
      processarFormatoValorSicoob s = some v ∧ 0 ≤ v) := by
  obtain ⟨hnum, hchars, hemp, hnan, hmatch⟩ := sicoobMatch_inv s num f h
  obtain ⟨v, hv, hv0⟩ := pyFloat_sicoobNum num hnum hchars
  have hrun : processarFormatoValorSicoob s
      = (if f == 'D' then some v else none) := by
    simp only [processarFormatoValorSicoob, hemp, hnan, hmatch, hv,
      Bool.or_self, Bool.false_eq_true, if_false]
  constructor
  · intro hfC
    subst hfC
    rw [hrun]
    simp
  · intro hfD
    subst hfD
    refine ⟨v, hv, ?_, hv0⟩
    rw [hrun]
    simp

theorem formato_a_valor_witness :
    (sicoobMatch "- 2.460,73 D".toList = some ("2.460,73".toList, 'D') ∧
      (∃ v : ℚ,
        pyFloat (("2.460,73".toList.filter (fun c => c != '.')).map
          (fun c => if c == ',' then '.' else c)) = some v ∧
        processarFormatoValorSicoob "- 2.460,73 D".toList = some v ∧ 0 ≤ v)) ∧
    (sicoobMatch "2.794,76 C".toList = some ("2.794,76".toList, 'C') ∧
      processarFormatoValorSicoob "2.794,76 C".toList = none) :=
  ⟨⟨by decide,
    (formato_a_valor "- 2.460,73 D".toList "2.460,73".toList 'D' (by decide)).2 rfl⟩,
   ⟨by decide,
    (formato_a_valor "2.794,76 C".toList "2.794,76".toList 'C' (by decide)).1 rfl⟩⟩

end Sicoob
